import Mathlib

/-!
Verification development for the SDUI-to-Google-Calendar synchronisation tool
(`app.py`, `main.py`, `clear.py`).  The Python source is shallowly embedded:
JSON payloads become an inductive `JVal` with Python's dynamic semantics
(attribute errors, truthiness, `or`-defaulting) made explicit through
`Except PyErr`; the background workers become pure functions over explicit
oracles for the network, the abort flag and the random jitter.
-/

namespace SduiCal

/-- Python exception classes that the embedded code can raise. -/
inductive PyErr where
  | attributeError
  | typeError
  | keyError
deriving DecidableEq

/-- A JSON-like Python value (`dict`s keep insertion order, as in Python).
Numeric JSON fields of this program are epoch-second timestamps, modelled
as integers. -/
inductive JVal where
  | null
  | bool (b : Bool)
  | num (n : Int)
  | str (s : String)
  | arr (xs : List JVal)
  | obj (fields : List (String × JVal))

namespace JVal

/-- Python truthiness (`bool(v)`): `None`, `0`, `""`, `[]`, `{}` are falsy. -/
def truthy : JVal → Bool
  | .null => false
  | .bool b => b
  | .num n => n != 0
  | .str s => !s.isEmpty
  | .arr xs => !xs.isEmpty
  | .obj fs => !fs.isEmpty

/-- Python `a or b`: returns `a` when truthy, else `b`. -/
def pyOr (a b : JVal) : JVal := if a.truthy then a else b

/-- Python `v == "s"` for a string literal on the right (cross-type
comparison yields `False`, never an error). -/
def eqStr : JVal → String → Bool
  | .str t, s => t == s
  | _, _ => false

end JVal

open JVal

/-- Python `v.get(key, default)`: only dicts have `.get`; anything else
raises `AttributeError`. -/
def pyGet (v : JVal) (key : String) (default : JVal) : Except PyErr JVal :=
  match v with
  | .obj fs => .ok (((fs.lookup key).getD default))
  | _ => .error .attributeError

/-- Substring test on character lists (Python `needle in hay` for strings). -/
def charsContain (needle : List Char) : List Char → Bool
  | [] => needle.isEmpty
  | c :: rest => needle.isPrefixOf (c :: rest) || charsContain needle rest

/-- Python `key in v` for a string key: dict → key membership, list →
element membership, string → substring; other receivers raise `TypeError`. -/
def pyContains (v : JVal) (key : String) : Except PyErr Bool :=
  match v with
  | .obj fs => .ok (fs.any (fun p => p.1 == key))
  | .arr xs => .ok (xs.any (fun x => x.eqStr key))
  | .str s => .ok (charsContain key.toList s.toList)
  | _ => .error .typeError

/-- Python `v[key]` subscription with a string key: only dicts; a missing
key is a `KeyError`, a non-dict receiver a `TypeError`. -/
def pySub (v : JVal) (key : String) : Except PyErr JVal :=
  match v with
  | .obj fs =>
    match fs.lookup key with
    | some x => .ok x
    | none => .error .keyError
  | _ => .error .typeError

/-- Python iteration `for x in v`: lists yield elements, strings yield
1-character strings, dicts yield their keys; the rest raise `TypeError`. -/
def pyIter (v : JVal) : Except PyErr (List JVal) :=
  match v with
  | .arr xs => .ok xs
  | .str s => .ok (s.toList.map (fun c => .str (String.singleton c)))
  | .obj fs => .ok (fs.map (fun p => JVal.str p.1))
  | _ => .error .typeError

/-- A single-quote character, used by the Python `repr` of strings. -/
def sq : String := String.singleton (Char.ofNat 39)

mutual
/-- Python `repr` of a JSON-like value (string escaping inside containers is
not reproduced; no claim depends on it). -/
def pyRepr : JVal → String
  | .null => "None"
  | .bool true => "True"
  | .bool false => "False"
  | .num n => toString n
  | .str s => sq ++ s ++ sq
  | .arr xs => "[" ++ String.intercalate ", " (pyReprList xs) ++ "]"
  | .obj fs => "\x7b" ++ String.intercalate ", " (pyReprObj fs) ++ "\x7d"

def pyReprList : List JVal → List String
  | [] => []
  | x :: xs => pyRepr x :: pyReprList xs

def pyReprObj : List (String × JVal) → List String
  | [] => []
  | (k, v) :: fs => (sq ++ k ++ sq ++ ": " ++ pyRepr v) :: pyReprObj fs
end

/-- Python `str(v)` as used by f-string interpolation. -/
def pyStr : JVal → String
  | .str s => s
  | v => pyRepr v

/-- Python `", ".join(vs)`: every element must be a string, otherwise
`TypeError`. -/
def pyJoin (sep : String) (vs : List JVal) : Except PyErr String := do
  let ss ← vs.mapM (fun v =>
    match v with
    | JVal.str s => Except.ok s
    | _ => Except.error PyErr.typeError)
  return String.intercalate sep ss

/-- Split a character list at every occurrence of `sep` (Python
`str.split` with an explicit one-character separator: consecutive
separators yield empty segments, and the result is never empty). -/
def splitChars (sep : Char) : List Char → List (List Char)
  | [] => [[]]
  | c :: rest =>
    let r := splitChars sep rest
    if c = sep then [] :: r
    else
      match r with
      | h :: t => (c :: h) :: t
      | [] => [[c]]

/-- Python `v.split("_")`: only strings have `.split`. -/
def pySplitU (v : JVal) : Except PyErr (List String) :=
  match v with
  | .str s => .ok ((splitChars '_' s.toList).map List.asString)
  | _ => .error .attributeError

/-- Models `datetime.fromtimestamp(ts, tz).isoformat()`, where `fmtTs` stands for
the timezone-aware formatting; a non-numeric timestamp raises `TypeError`
(Python `bool` is an `int`). -/
def pyTimestamp (fmtTs : Int → String) (v : JVal) : Except PyErr String :=
  match v with
  | .num n => .ok (fmtTs n)
  | .bool b => .ok (fmtTs (if b then 1 else 0))
  | _ => .error .typeError

/-- The list comprehension `[b["name"] for b in bs if "name" in b]`
(app.py lines 167-168), in Python evaluation order. -/
def pyNamesOf : List JVal → Except PyErr (List JVal)
  | [] => .ok []
  | b :: rest => do
    let c ← pyContains b "name"
    if c then
      let v ← pySub b "name"
      let r ← pyNamesOf rest
      return (v :: r)
    else
      pyNamesOf rest

/-- A normalized calendar event, app.py lines 175-182 (`stop` renders the
source's `end` key, which is reserved in Lean). -/
structure GEvent where
  summary : String
  start : String
  stop : String
  location : String
  description : String
  colorId : String
deriving DecidableEq

/-- Color constants of app.py lines 140-144. -/
def COLOR_EXAM : String := "11"

/-- Green, app.py line 141. -/
def COLOR_HOLIDAY : String := "10"

/-- Orange, app.py line 142. -/
def COLOR_CHANGE : String := "6"

/-- Purple, app.py line 143. -/
def COLOR_EVENT : String := "3"

/-- Blue, app.py line 144. -/
def COLOR_DEFAULT : String := "9"

/-- Lookup table `oftype_map` of app.py line 139. -/
def oftype_map : List (String × String) :=
  [("CANCLED", "❌ Cancelled: "),
   ("BOOKABLE_CHANGE", "⚠️ Room: "),
   ("SUBSTITUTION", "🔄 Sub: "),
   ("EXAM", "📝 Exam: ")]

/-- Evaluates `oftype_map.get(oftype, '')`: dict lookup keyed by an arbitrary value;
unhashable keys (lists, dicts) raise `TypeError`, any other non-matching
key falls back to the default. -/
def oftypeLabel (oftype : JVal) : Except PyErr String :=
  match oftype with
  | .str s => .ok ((oftype_map.lookup s).getD "")
  | .arr _ => .error .typeError
  | .obj _ => .error .typeError
  | _ => .ok ""

/-- The per-lesson header (summary, location, description, colorId) of
`process_sdui_data`, app.py lines 147-170. -/
def lessonHeader (lesson : JVal) : Except PyErr (String × String × String × String) := do
  let kind ← pyGet lesson "kind" .null
  let oftype ← pyGet lesson "oftype" .null
  if kind.eqStr "HOLIDAY" || kind.eqStr "EVENT" then
    let metaRaw ← pyGet lesson "meta" .null
    let meta := pyOr metaRaw (.obj [])
    let dn ← pyGet meta "displayname" .null
    let cm ← pyGet lesson "comment" .null
    let subject := pyOr (pyOr dn cm) (.str "Event")
    let summary :=
      (if kind.eqStr "HOLIDAY" then "🏖️ " else "📅 ") ++ pyStr subject
    let colorId := if kind.eqStr "HOLIDAY" then COLOR_HOLIDAY else COLOR_EVENT
    let cm2 ← pyGet lesson "comment" (.str "")
    let description := "Type: " ++ pyStr kind ++ "\nComment: " ++ pyStr cm2
    return (summary, "", description, colorId)
  else
    let courseRaw ← pyGet lesson "course" .null
    let course := pyOr courseRaw (.obj [])
    let metaRaw ← pyGet course "meta" .null
    let meta := pyOr metaRaw (.obj [])
    let dn ← pyGet meta "displayname" (.str "Unknown")
    let parts ← pySplitU dn
    let subject := parts.getLastD ""
    let label ← oftypeLabel oftype
    let summary := label ++ subject
    let colorId :=
      if oftype.eqStr "EXAM" then COLOR_EXAM
      else if oftype.eqStr "SUBSTITUTION" || oftype.eqStr "BOOKABLE_CHANGE" then COLOR_CHANGE
      else if oftype.eqStr "CANCLED" then "8"
      else COLOR_DEFAULT
    let bkRaw ← pyGet lesson "bookables" .null
    let bks ← pyIter (pyOr bkRaw (.arr []))
    let rooms ← pyNamesOf bks
    let thRaw ← pyGet lesson "teachers" .null
    let ths ← pyIter (pyOr thRaw (.arr []))
    let teachers ← pyNamesOf ths
    let location ← pyJoin ", " rooms
    let tj ← pyJoin ", " teachers
    let description := "Teacher: " ++ tj ++ "\nType: " ++ pyStr (pyOr kind oftype)
    return (summary, location, description, colorId)

/-- One iteration of the lesson loop of `process_sdui_data`
(app.py lines 146-182): the header is computed first, then the record is
skipped when either timestamp is falsy, exactly as in the source. -/
def processLesson (fmtTs : Int → String) (lesson : JVal) :
    Except PyErr (Option GEvent) := do
  let hd ← lessonHeader lesson
  let tsStart ← pyGet lesson "begins_at" .null
  let tsEnd ← pyGet lesson "ends_at" .null
  if !tsStart.truthy || !tsEnd.truthy then
    return none
  else
    let s ← pyTimestamp fmtTs tsStart
    let e ← pyTimestamp fmtTs tsEnd
    return some ⟨hd.1, s, e, hd.2.1, hd.2.2.1, hd.2.2.2⟩

/-- The lesson loop of `process_sdui_data`, accumulating events in order. -/
def processLessons (fmtTs : Int → String) : List JVal → Except PyErr (List GEvent)
  | [] => .ok []
  | l :: rest => do
    let e? ← processLesson fmtTs l
    let r ← processLessons fmtTs rest
    match e? with
    | some e => return (e :: r)
    | none => return r

/-- Embedding of `process_sdui_data` (app.py lines 133-183).  `fmtTs` abstracts
`datetime.fromtimestamp(ts, tz).isoformat()` for the configured timezone. -/
def process_sdui_data (fmtTs : Int → String) (sduiData : JVal) :
    Except PyErr (List GEvent) := do
  if !sduiData.truthy then
    return []
  else
    let hasData ← pyContains sduiData "data"
    if !hasData then
      return []
    else
      let d ← pyGet sduiData "data" (.obj [])
      let lessonsV ← pyGet d "lessons" (.arr [])
      let lessons ← pyIter lessonsV
      processLessons fmtTs lessons

/-! Log buffer (app.py lines 29-35 and 352-355) -/

/-- Buffer action of `log_msg`: append the entry, then `pop(0)` the
oldest element once the length exceeds 500.  The printed timestamp prefix
is part of the entry string and irrelevant to the buffer discipline. -/
def log_msg (buf : List String) (entry : String) : List String :=
  if 500 < (buf ++ [entry]).length then (buf ++ [entry]).drop 1 else buf ++ [entry]

/-- The `/clear_logs` route body: `LOG_BUFFER.clear()`. -/
def clear_logs_route (_buf : List String) : List String := []

/-! Run-state guard (app.py routes, lines 365-424).  The Flask server runs
threaded (app.py line 428) and uses no lock: a start route only READS
`IS_RUNNING` (lines 367/378/397/410) and then spawns a thread
(lines 372/390/403/421); `IS_RUNNING = True` is executed later by the
worker itself (lines 188/252).  The model therefore keeps the guard read,
the spawn, the worker's flag-set and the worker's flag-reset as separate
atomic memory events, so interleavings of concurrent requests are
representable. -/

/-- The shared memory and thread population of the start routes and
workers: the `IS_RUNNING` global, the request handlers that have entered a
start route but not yet executed the guard read, the handlers that read
`IS_RUNNING == False` and have not yet reached `Thread(...).start()`, the
spawned workers that have not yet executed `IS_RUNNING = True`, the
workers past that assignment and not yet finished, and the count of
handlers that returned the "Process already running!" rejection. -/
structure AppState where
  isRunning : Bool
  reqChecking : Nat
  reqPassed : Nat
  workersNew : Nat
  workersRunning : Nat
  rejected : Nat
deriving DecidableEq

/-- The atomic memory events of the start routes and the workers'
run-state updates: a request entering a start route, a guard read
(`if IS_RUNNING:`), a `threading.Thread(...).start()`, a worker's
`IS_RUNNING = True` (app.py lines 188/252), and a worker's final
`IS_RUNNING = False` (lines 248/300). -/
inductive AppOp where
  | arrive
  | check
  | spawn
  | workerSetFlag
  | workerFinish
deriving DecidableEq

/-- Effect of one atomic event on the shared state (events whose acting
thread does not exist leave the state unchanged). -/
def appStep (s : AppState) : AppOp → AppState
  | .arrive => { s with reqChecking := s.reqChecking + 1 }
  | .check =>
    if s.reqChecking = 0 then s
    else if s.isRunning then
      { s with reqChecking := s.reqChecking - 1, rejected := s.rejected + 1 }
    else
      { s with reqChecking := s.reqChecking - 1, reqPassed := s.reqPassed + 1 }
  | .spawn =>
    if s.reqPassed = 0 then s
    else { s with reqPassed := s.reqPassed - 1, workersNew := s.workersNew + 1 }
  | .workerSetFlag =>
    if s.workersNew = 0 then s
    else
      { s with workersNew := s.workersNew - 1,
               workersRunning := s.workersRunning + 1, isRunning := true }
  | .workerFinish =>
    if s.workersRunning = 0 then s
    else { s with workersRunning := s.workersRunning - 1, isRunning := false }

/-- Number of live worker threads (spawned and not yet finished). -/
def liveWorkers (s : AppState) : Nat := s.workersNew + s.workersRunning

/-- The state at process start: idle, no handlers, no workers. -/
def appInit : AppState := ⟨false, 0, 0, 0, 0, 0⟩

/-- Run a schedule of atomic events from process start. -/
def appRun (ops : List AppOp) : AppState := ops.foldl appStep appInit

/-- A guard read issued at `s` does not race another request's
check-to-flag-set window: no handler is between its own guard read and
its spawn, and no spawned worker is still short of `IS_RUNNING = True`. -/
def noRaceAt (s : AppState) (op : AppOp) : Prop :=
  op = .check → s.reqPassed = 0 ∧ s.workersNew = 0

/-- A schedule is race-free from `s` when every guard read along it
satisfies `noRaceAt`. -/
def raceFreeFrom : AppState → List AppOp → Prop
  | _, [] => True
  | s, op :: ops => noRaceAt s op ∧ raceFreeFrom (appStep s op) ops

/-- Inductive invariant for race-free schedules: at most one handler or
worker occupies the passed/spawned/running pipeline, and `IS_RUNNING` is
set exactly while a worker is past its flag assignment. -/
def appInv (s : AppState) : Prop :=
  s.reqPassed + s.workersNew + s.workersRunning ≤ 1 ∧
  (s.isRunning = true ↔ 1 ≤ s.workersRunning)

/-! Sync worker (app.py lines 186-248) -/

/-- Outcome of one `service.events().insert(...).execute()` call, as
discriminated by app.py lines 238-245: success, an `HttpError` with
status 403 mentioning `usageLimits` (the rate-limit case), or any other
`HttpError`. -/
inductive InsertResult where
  | ok
  | rateLimit
  | httpError
deriving DecidableEq

/-- Mutable state threaded through the sync worker loops: the insert
counter, how many `ABORT_FLAG` reads and `random.random()` draws have
happened, the sleeps performed (seconds, exact rationals), and the log
lines emitted. -/
structure SyncSt where
  count : Nat
  polls : Nat
  jdraws : Nat
  sleeps : List ℚ
  logs : List String

/-- The retry loop of app.py lines 230-245 for the event at index `i` with
summary `summ` (of `total`).  `ins` gives the insert outcome per attempt,
`abort` the value of `ABORT_FLAG` at each read, `jit` the successive
`random.random()` draws.  `fuel + attempt = 8` throughout (`max_retries`). -/
def syncRetry (ins : Nat → InsertResult) (abort : Nat → Bool) (jit : Nat → ℚ)
    (i total : Nat) (summ : String) : Nat → Nat → SyncSt → SyncSt
  | 0, _, st => st
  | fuel + 1, attempt, st =>
    if abort st.polls then { st with polls := st.polls + 1 }
    else
      let st1 := { st with polls := st.polls + 1 }
      match ins attempt with
      | .ok =>
        { st1 with
          count := st1.count + 1,
          logs := st1.logs ++
            ["[" ++ toString (i + 1) ++ "/" ++ toString total ++ "] Uploaded: " ++ summ] }
      | .rateLimit =>
        let wait : ℚ := (2 : ℚ) ^ attempt + jit st1.jdraws
        syncRetry ins abort jit i total summ fuel (attempt + 1)
          { st1 with
            jdraws := st1.jdraws + 1,
            sleeps := st1.sleeps ++ [wait],
            logs := st1.logs ++
              ["Rate Limit Hit! Pausing " ++ toString wait ++ "s..."] }
      | .httpError =>
        { st1 with
          logs := st1.logs ++ ["Error on item " ++ toString i ++ ": HttpError"] }

/-- The event loop of app.py lines 215-245.  `ins2 i a` is the outcome of
the `a`-th insert attempt for the event at index `i`. -/
def syncLoop (ins2 : Nat → Nat → InsertResult) (abort : Nat → Bool) (jit : Nat → ℚ)
    (total : Nat) : List GEvent → Nat → SyncSt → SyncSt
  | [], _, st => st
  | e :: rest, i, st =>
    if abort st.polls then
      { st with polls := st.polls + 1, logs := st.logs ++ ["!!! STOPPED BY USER !!!"] }
    else
      let st1 := syncRetry (ins2 i) abort jit i total e.summary 8 0
        { st with polls := st.polls + 1 }
      syncLoop ins2 abort jit total rest (i + 1) st1

/-- Environment of one sync run: the result of `get_sdui_data` (`none` when
it returned `None` — missing config or network error), whether
`get_calendar_service` produced a service, the insert outcomes, the
`ABORT_FLAG` reads and the jitter draws. -/
structure SyncEnv where
  fetchResult : Option JVal
  authOk : Bool
  insert : Nat → Nat → InsertResult
  abort : Nat → Bool
  jit : Nat → ℚ

/-- Observable outcome of a sync run: final counter, final `IS_RUNNING`,
sleeps performed and log lines emitted. -/
structure SyncOut where
  count : Nat
  running : Bool
  sleeps : List ℚ
  logs : List String

/-- Embedding of `worker_sync` (app.py lines 186-248).  An `.error` value is an uncaught
Python exception escaping the worker thread (in which case `IS_RUNNING` is
never reset); the log lines produced inside `get_sdui_data` are abstracted
into `fetchResult`. -/
def worker_sync (fmtTs : Int → String) (env : SyncEnv) : Except PyErr SyncOut :=
  let logs0 := ["--- STARTING SYNC (Background) ---"]
  match env.fetchResult with
  | none => .ok ⟨0, false, [], logs0 ++ ["Failed to get data."]⟩
  | some data =>
    if !data.truthy then .ok ⟨0, false, [], logs0 ++ ["Failed to get data."]⟩
    else
      match process_sdui_data fmtTs data with
      | .error e => .error e
      | .ok events =>
        if events.isEmpty then .ok ⟨0, false, [], logs0 ++ ["No events found."]⟩
        else if !env.authOk then .ok ⟨0, false, [], logs0 ++ ["Auth failed."]⟩
        else
          let total := events.length
          let st0 : SyncSt :=
            ⟨0, 0, 0, [], logs0 ++ ["Queue: " ++ toString total ++ " events."]⟩
          let st := syncLoop env.insert env.abort env.jit total events 0 st0
          .ok ⟨st.count, false, st.sleeps,
            st.logs ++ ["--- FINISHED. Imported " ++ toString st.count ++ " events. ---"]⟩

/-! Clear worker (app.py lines 250-300) -/

/-- Outcome of one `service.events().delete(...).execute()` call as
discriminated by app.py lines 289-294: success, `HttpError` 403
(rate limit), `HttpError` 404/410 (already gone, silent), or any other
`HttpError`. -/
inductive DelResult where
  | ok
  | rate403
  | gone
  | otherErr
deriving DecidableEq

/-- Environment of one clear run: `list p` is the item list returned by the
pass-`p` scan (`none` when the `list` call raised and the bare `except`
broke the pass loop), `del p j` the outcome of deleting the `j`-th listed
item of pass `p`, `abort` the successive `ABORT_FLAG` reads. -/
structure ClearEnv where
  list : Nat → Option (List String)
  del : Nat → Nat → DelResult
  abort : Nat → Bool

/-- Mutable state of the clear worker: totals, number of scan passes
actually entered, `ABORT_FLAG` reads, sleeps, the (pass, item-index) trace
of delete calls issued, and log lines. -/
structure ClearSt where
  totalDeleted : Nat
  passes : Nat
  polls : Nat
  sleeps : List ℚ
  delCalls : List (Nat × Nat)
  logs : List String

/-- The delete loop of app.py lines 282-294 for pass `p`: on 403 the
worker logs, sleeps a constant 2 seconds and falls through to the NEXT
item (the `except` handler ends the iteration); 404/410 are silent; other
errors are logged.  Returns the pass's `batch_del` and the new state. -/
def clearDelLoop (env : ClearEnv) (p : Nat) :
    List String → Nat → Nat → ClearSt → Nat × ClearSt
  | [], _, batch, st => (batch, st)
  | _ev :: rest, j, batch, st =>
    if env.abort st.polls then (batch, { st with polls := st.polls + 1 })
    else
      let st1 := { st with polls := st.polls + 1, delCalls := st.delCalls ++ [(p, j)] }
      match env.del p j with
      | .ok =>
        let td := st1.totalDeleted + 1
        let st2 :=
          { st1 with
            totalDeleted := td,
            logs :=
              if td % 10 == 0 then st1.logs ++ ["Deleted " ++ toString td ++ "..."]
              else st1.logs }
        clearDelLoop env p rest (j + 1) (batch + 1) st2
      | .rate403 =>
        clearDelLoop env p rest (j + 1) batch
          { st1 with
            sleeps := st1.sleeps ++ [(2 : ℚ)],
            logs := st1.logs ++ ["Rate Limit (Delete). Waiting 2s..."] }
      | .gone => clearDelLoop env p rest (j + 1) batch st1
      | .otherErr =>
        clearDelLoop env p rest (j + 1) batch
          { st1 with logs := st1.logs ++ ["Del Error: HttpError"] }

/-- The pass loop of app.py lines 263-296 (`for pass_num in range(1, 6)`):
`p` is the current pass number, `fuel` the remaining passes
(`p + fuel = 6` at every call from the worker). -/
def clearLoop (env : ClearEnv) : Nat → Nat → ClearSt → ClearSt
  | _, 0, st => st
  | p, fuel + 1, st =>
    if env.abort st.polls then { st with polls := st.polls + 1 }
    else
      let st1 :=
        { st with
          polls := st.polls + 1,
          passes := st.passes + 1,
          logs := st.logs ++ ["Pass " ++ toString p ++ ": Scanning for events..."] }
      match env.list p with
      | none => st1
      | some items =>
        if items.isEmpty then { st1 with logs := st1.logs ++ ["Clean."] }
        else
          let st2 :=
            { st1 with
              logs := st1.logs ++
                ["Found " ++ toString items.length ++ " events to delete."] }
          let r := clearDelLoop env p items 0 0 st2
          if r.1 == 0 then r.2
          else clearLoop env (p + 1) fuel r.2

/-- Observable outcome of a clear run. -/
structure ClearOut where
  totalDeleted : Nat
  passes : Nat
  running : Bool
  sleeps : List ℚ
  delCalls : List (Nat × Nat)
  logs : List String

/-- Embedding of `worker_clear` (app.py lines 250-300).  Every failure path inside the
worker is caught (`list` by a bare `except`, `delete` by the `HttpError`
handler), so the worker always terminates and resets `IS_RUNNING`. -/
def worker_clear (env : ClearEnv) : ClearOut :=
  let st0 : ClearSt := ⟨0, 0, 0, [], [], ["--- STARTING DELETE (Background) ---"]⟩
  let st := clearLoop env 1 5 st0
  let finalLogs :=
    if env.abort st.polls then st.logs ++ ["!!! STOPPED BY USER !!!"]
    else st.logs ++
      ["--- FINISHED. Deleted " ++ toString st.totalDeleted ++ " events. ---"]
  ⟨st.totalDeleted, st.passes, false, st.sleeps, st.delCalls, finalLogs⟩

/-! Listing and pagination (main.py lines 111-125, app.py lines 267-274) -/

/-- The pagination loop of `clear_events_gui` (main.py lines 111-125): the
provider's successive responses are `pages`; each iteration extends
`all_events` with the response items and follows `nextPageToken`, which is
present exactly while further responses remain. -/
def gatherAllPages : List (List String) → List String
  | [] => []
  | page :: rest => page ++ gatherAllPages rest

/-- The scan of `worker_clear` (app.py lines 268-271): a single
`events().list(...)` call with `maxResults=250` and no page-token loop —
only the provider's first response page is ever read. -/
def appScanListing (pages : List (List String)) : List String := pages.headD []

/-! Concrete inputs and claim-level predicates used by the theorems. -/

/-- A concrete timestamp formatter (decimal rendering) used wherever a
closed statement needs one; the claims hold for every formatter. -/
def fmtTs0 : Int → String := fun n => toString n

/-- The lesson record of the exam scenario: kind `lesson`, oftype `EXAM`,
course display name `10B_Chemistry`, one teacher `Dr.X`. -/
def lessonC5 : JVal := .obj
  [("kind", .str "lesson"), ("oftype", .str "EXAM"),
   ("course", .obj [("meta", .obj [("displayname", .str "10B_Chemistry")])]),
   ("begins_at", .num 1700000000), ("ends_at", .num 1700003600),
   ("teachers", .arr [.obj [("name", .str "Dr.X")]])]

/-- The exam-scenario payload wrapping `lessonC5`. -/
def payloadC5 : JVal := .obj [("data", .obj [("lessons", .arr [lessonC5])])]

/-- A well-formed lesson whose `begins_at` is the integer 0 (epoch). -/
def lessonZeroTs : JVal := .obj
  [("kind", .str "lesson"), ("oftype", .str "EXAM"),
   ("course", .obj [("meta", .obj [("displayname", .str "10B_Chemistry")])]),
   ("begins_at", .num 0), ("ends_at", .num 1700003600)]

/-- The same lesson with the `begins_at` field absent. -/
def lessonNoTs : JVal := .obj
  [("kind", .str "lesson"), ("oftype", .str "EXAM"),
   ("course", .obj [("meta", .obj [("displayname", .str "10B_Chemistry")])]),
   ("ends_at", .num 1700003600)]

/-- An abort-flag oracle that is never set. -/
def abortOff : Nat → Bool := fun _ => false

/-- The sync-worker state at the start of the upload loop. -/
def syncSt0 : SyncSt := ⟨0, 0, 0, [], []⟩

/-- Three normalized events for the retry scenario. -/
def evs3 : List GEvent :=
  [⟨"A", "s", "e", "", "", "9"⟩, ⟨"B", "s", "e", "", "", "9"⟩, ⟨"C", "s", "e", "", "", "9"⟩]

/-- Insert oracle of the retry scenario: item 2 (index 1) is rate-limited
on its first two attempts and succeeds afterwards; other items succeed
immediately. -/
def insScenario : Nat → Nat → InsertResult := fun i a =>
  if i == 1 && a < 2 then .rateLimit else .ok

/-- The buffer discipline asserted by the spec: an operation on the log
buffer may remove at most the oldest entry (every entry but the head
survives, in order). -/
def removesAtMostOldest (op : List String → List String) : Prop :=
  ∀ buf : List String, buf.drop 1 <:+: op buf

/-- Clear-run environment refuting the delete-retry claim: pass 1 lists
two items, deleting the first is rate-limited (403), the second succeeds;
pass 2 finds the window clean. -/
def envC7 : ClearEnv :=
  { list := fun p => if p == 1 then some ["a", "b"] else some []
    del := fun _ j => if j == 0 then .rate403 else .ok
    abort := abortOff }

/-- The delete-call trace of a clear run. -/
def delCallsOf (env : ClearEnv) : List (Nat × Nat) := (worker_clear env).delCalls

/-- The per-item retry discipline the claim attributes to the clear
worker: whenever a delete call is rate-limited, the immediately following
delete call targets the same (pass, item). -/
def retriesSameDelete (env : ClearEnv) : Prop :=
  ∀ k, k + 1 < (delCallsOf env).length →
    env.del ((delCallsOf env).getD k (0, 0)).1 ((delCallsOf env).getD k (0, 0)).2 = .rate403 →
    (delCallsOf env).getD (k + 1) (0, 0) = (delCallsOf env).getD k (0, 0)

/-- Clear-run environment for witnesses: every scan is empty. -/
def envClean : ClearEnv :=
  { list := fun _ => some [], del := fun _ _ => .otherErr, abort := abortOff }

/-- Sync-run environment for witnesses: the fetch failed (`None`). -/
def envFetchFail : SyncEnv :=
  { fetchResult := none, authOk := true, insert := fun _ _ => .ok,
    abort := abortOff, jit := fun _ => 0 }

/-- Insert oracle where item 2 (index 1) always fails with a
non-rate-limit `HttpError`; other items succeed. -/
def insErr1 : Nat → Nat → InsertResult := fun i _ =>
  if i == 1 then .httpError else .ok

/-- Insert oracle that is always rate-limited. -/
def insAlwaysRL : Nat → Nat → InsertResult := fun _ _ => .rateLimit

/-! Helper lemmas. -/

/-- An `ok` result of the sync worker always carries `running = false`
(the worker's every return path ends in `IS_RUNNING = False`). -/
theorem worker_sync_running (fmtTs : Int → String) (env : SyncEnv) (out : SyncOut)
    (h : worker_sync fmtTs env = .ok out) : out.running = false := by
  unfold worker_sync at h
  split at h
  · injection h with h; subst h; rfl
  · split at h
    · injection h with h; subst h; rfl
    · split at h
      · simp at h
      · split at h
        · injection h with h; subst h; rfl
        · split at h
          · injection h with h; subst h; rfl
          · injection h with h; subst h; rfl

/-- The sync worker returns (no uncaught exception) whenever normalization
of the fetched payload does not raise. -/
theorem worker_sync_no_error (fmtTs : Int → String) (env : SyncEnv)
    (hok : ∀ d, env.fetchResult = some d → ∃ evs, process_sdui_data fmtTs d = .ok evs)
    (e : PyErr) : worker_sync fmtTs env ≠ .error e := by
  unfold worker_sync
  cases hf : env.fetchResult with
  | none => simp
  | some d =>
    obtain ⟨evs, hevs⟩ := hok d hf
    by_cases htr : d.truthy = true
    · simp only [htr, Bool.not_true, Bool.false_eq_true, if_false, hevs]
      split
      · simp
      · split <;> simp
    · simp [htr]

/-- A non-racing atomic event preserves the single-run invariant. -/
theorem appStep_inv (s : AppState) (op : AppOp) (h : appInv s) (hr : noRaceAt s op) :
    appInv (appStep s op) := by
  obtain ⟨h1, h2⟩ := h
  cases op with
  | arrive => exact ⟨h1, h2⟩
  | check =>
    obtain ⟨hp, hn⟩ := hr rfl
    simp only [appStep]
    split
    · exact ⟨h1, h2⟩
    · split
      · exact ⟨h1, h2⟩
      · next h0 hf =>
        have hw : ¬ 1 ≤ s.workersRunning := fun hge => hf (h2.mpr hge)
        refine ⟨?_, h2⟩
        show s.reqPassed + 1 + s.workersNew + s.workersRunning ≤ 1
        omega
  | spawn =>
    simp only [appStep]
    split
    · exact ⟨h1, h2⟩
    · next h0 =>
      refine ⟨?_, h2⟩
      show s.reqPassed - 1 + (s.workersNew + 1) + s.workersRunning ≤ 1
      omega
  | workerSetFlag =>
    simp only [appStep]
    split
    · exact ⟨h1, h2⟩
    · next h0 =>
      refine ⟨?_, ?_⟩
      · show s.reqPassed + (s.workersNew - 1) + (s.workersRunning + 1) ≤ 1
        omega
      · exact ⟨fun _ => by show 1 ≤ s.workersRunning + 1; omega, fun _ => rfl⟩
  | workerFinish =>
    simp only [appStep]
    split
    · exact ⟨h1, h2⟩
    · next h0 =>
      have hwr : 1 ≤ s.workersRunning := by omega
      refine ⟨?_, ?_⟩
      · show s.reqPassed + s.workersNew + (s.workersRunning - 1) ≤ 1
        omega
      · constructor
        · intro hF
          exact absurd hF (by simp)
        · intro hge
          have : 1 ≤ s.workersRunning - 1 := hge
          exact absurd h1 (by omega)

/-- The single-run invariant holds along every race-free schedule. -/
theorem appRun_inv : ∀ (ops : List AppOp) (s : AppState), appInv s →
    raceFreeFrom s ops → appInv (ops.foldl appStep s)
  | [], _, h, _ => h
  | op :: ops, s, h, hr =>
    appRun_inv ops (appStep s op) (appStep_inv s op h hr.1) hr.2

/-- One `log_msg` append keeps the buffer within its 500-entry capacity. -/
theorem log_msg_length (buf : List String) (e : String) (h : buf.length ≤ 500) :
    (log_msg buf e).length ≤ 500 := by
  unfold log_msg
  split
  · simpa using h
  · next hl => simp at hl ⊢; omega

/-- Iterated `log_msg` appends keep the buffer within capacity. -/
theorem log_foldl_bound : ∀ (entries : List String) (buf : List String),
    buf.length ≤ 500 → (entries.foldl log_msg buf).length ≤ 500
  | [], _, h => h
  | e :: es, buf, h => log_foldl_bound es (log_msg buf e) (log_msg_length buf e h)

/-- The delete loop never changes the pass counter. -/
theorem clearDelLoop_passes (env : ClearEnv) (p : Nat) (items : List String) :
    ∀ (j batch : Nat) (st : ClearSt),
      (clearDelLoop env p items j batch st).2.passes = st.passes := by
  induction items with
  | nil => intro j batch st; rfl
  | cons ev rest ih =>
    intro j batch st
    unfold clearDelLoop
    split
    · rfl
    · split <;> simp [ih]

/-- With no successful delete in a pass, the batch counter and the
deletion total do not move. -/
theorem clearDelLoop_allFail (env : ClearEnv) (p : Nat)
    (hd : ∀ j, env.del p j ≠ .ok) (items : List String) :
    ∀ (j batch : Nat) (st : ClearSt),
      (clearDelLoop env p items j batch st).1 = batch ∧
      (clearDelLoop env p items j batch st).2.totalDeleted = st.totalDeleted := by
  induction items with
  | nil => intro j batch st; exact ⟨rfl, rfl⟩
  | cons ev rest ih =>
    intro j batch st
    unfold clearDelLoop
    split
    · exact ⟨rfl, rfl⟩
    · split
      · next h => exact absurd h (hd j)
      · simpa using ih (j + 1) batch _
      · simpa using ih (j + 1) batch _
      · simpa using ih (j + 1) batch _

/-- The pass loop enters at most `fuel` further scan passes. -/
theorem clearLoop_passes_le (env : ClearEnv) :
    ∀ (fuel p : Nat) (st : ClearSt),
      (clearLoop env p fuel st).passes ≤ st.passes + fuel := by
  intro fuel
  induction fuel with
  | zero => intro p st; simp [clearLoop]
  | succ f ih =>
    intro p st
    simp only [clearLoop]
    split
    · simp
    · split
      · simp
      · split
        · simp
        · split
          · rw [clearDelLoop_passes]
            simp
          · refine le_trans (ih (p + 1) _) ?_
            rw [clearDelLoop_passes]
            simp
            omega

/-- Every sleep performed by the delete loop is the constant 2 seconds. -/
theorem clearDelLoop_sleeps2 (env : ClearEnv) (p : Nat) (items : List String) :
    ∀ (j batch : Nat) (st : ClearSt),
      (∀ x ∈ st.sleeps, x = (2 : ℚ)) →
      ∀ x ∈ (clearDelLoop env p items j batch st).2.sleeps, x = (2 : ℚ) := by
  induction items with
  | nil => intro j batch st h; exact h
  | cons ev rest ih =>
    intro j batch st h
    unfold clearDelLoop
    split
    · exact h
    · split
      · exact ih (j + 1) _ _ h
      · refine ih (j + 1) _ _ ?_
        intro x hx
        rcases List.mem_append.mp hx with h1 | h1
        · exact h x h1
        · simpa using h1
      · exact ih (j + 1) _ _ h
      · exact ih (j + 1) _ _ h

/-- Every sleep performed across the whole pass loop is 2 seconds. -/
theorem clearLoop_sleeps2 (env : ClearEnv) :
    ∀ (fuel p : Nat) (st : ClearSt),
      (∀ x ∈ st.sleeps, x = (2 : ℚ)) →
      ∀ x ∈ (clearLoop env p fuel st).sleeps, x = (2 : ℚ) := by
  intro fuel
  induction fuel with
  | zero => intro p st h; exact h
  | succ f ih =>
    intro p st h
    simp only [clearLoop]
    split
    · exact h
    · split
      · exact h
      · split
        · exact h
        · split
          · exact clearDelLoop_sleeps2 env p _ 0 0 _ h
          · exact ih (p + 1) _ (clearDelLoop_sleeps2 env p _ 0 0 _ h)

/-- The delete calls recorded by one pass's delete loop are the pass's
consecutive item indices, appended to the existing trace. -/
theorem clearDelLoop_calls (env : ClearEnv) (p : Nat) (items : List String) :
    ∀ (j batch : Nat) (st : ClearSt),
      ∃ n, (clearDelLoop env p items j batch st).2.delCalls =
        st.delCalls ++ (List.range' j n).map (fun jj => (p, jj)) := by
  induction items with
  | nil => intro j batch st; exact ⟨0, by simp [clearDelLoop]⟩
  | cons ev rest ih =>
    intro j batch st
    unfold clearDelLoop
    split
    · exact ⟨0, by simp⟩
    · split
      all_goals
        obtain ⟨n, hn⟩ := ih (j + 1) _ _
        refine ⟨n + 1, ?_⟩
        rw [hn]
        simp [List.range'_succ]

/-- One pass's delete loop keeps the trace duplicate-free and keeps every
pass component below `p + 1`, provided the existing trace only mentions
earlier passes. -/
theorem clearDelLoop_nodup (env : ClearEnv) (p : Nat) (items : List String)
    (j batch : Nat) (st : ClearSt)
    (h : st.delCalls.Nodup) (hlt : ∀ c ∈ st.delCalls, c.1 < p) :
    (clearDelLoop env p items j batch st).2.delCalls.Nodup ∧
    (∀ c ∈ (clearDelLoop env p items j batch st).2.delCalls, c.1 < p + 1) := by
  obtain ⟨n, hn⟩ := clearDelLoop_calls env p items j batch st
  rw [hn]
  constructor
  · refine List.Nodup.append h ?_ ?_
    · exact (List.nodup_range' _ _).map (fun a b hab => by
        simpa using congrArg Prod.snd hab)
    · intro c hc1 hc2
      obtain ⟨jj, _, hjj⟩ := List.mem_map.mp hc2
      have hc := hlt c hc1
      rw [← hjj] at hc
      exact absurd hc (by simp)
  · intro c hc
    rcases List.mem_append.mp hc with h1 | h1
    · exact Nat.lt_succ_of_lt (hlt c h1)
    · obtain ⟨jj, _, hjj⟩ := List.mem_map.mp h1
      subst hjj
      exact Nat.lt_succ_self p

/-- The delete-call trace never mentions the same (pass, item) twice. -/
theorem clearLoop_calls_nodup (env : ClearEnv) :
    ∀ (fuel p : Nat) (st : ClearSt),
      st.delCalls.Nodup → (∀ c ∈ st.delCalls, c.1 < p) →
      (clearLoop env p fuel st).delCalls.Nodup := by
  intro fuel
  induction fuel with
  | zero => intro p st h _; exact h
  | succ f ih =>
    intro p st h hlt
    simp only [clearLoop]
    split
    · exact h
    · split
      · exact h
      · split
        · exact h
        · split
          · exact (clearDelLoop_nodup env p _ 0 0 _
              (by simpa using h) (by simpa using hlt)).1
          · refine ih (p + 1) _ ?_ ?_
            · exact (clearDelLoop_nodup env p _ 0 0 _
                (by simpa using h) (by simpa using hlt)).1
            · exact (clearDelLoop_nodup env p _ 0 0 _
                (by simpa using h) (by simpa using hlt)).2

/-- One backoff step strictly grows: `2^a` plus a jitter below 1 is less
than `2^(a+1)` plus any non-negative jitter. -/
theorem backoff_step (a : Nat) (j1 j2 : ℚ) (_h1 : 0 ≤ j1) (h2 : j1 < 1) (h3 : 0 ≤ j2) :
    (2 : ℚ) ^ a + j1 < (2 : ℚ) ^ (a + 1) + j2 := by
  have hp : (1 : ℚ) ≤ 2 ^ a := one_le_pow₀ (by norm_num)
  have hs : (2 : ℚ) ^ (a + 1) = 2 ^ a + 2 ^ a := by ring
  linarith

/-! Claim theorems. -/

/-- C1 counterexample: the guard is check-then-spawn with no lock, and
the worker sets `IS_RUNNING` only after being spawned, so two requests
that each read `IS_RUNNING == False` before either spawned worker sets it
both pass the guard and both spawn: the schedule
arrive-arrive-check-check-spawn-spawn ends with two live workers and no
rejection, refuting "at most one sync or clear run is active system-wide
at any time". -/
theorem double_spawn_race :
    liveWorkers (appRun [.arrive, .arrive, .check, .check, .spawn, .spawn]) = 2 ∧
    (appRun [.arrive, .arrive, .check, .check, .spawn, .spawn]).rejected = 0 ∧
    ¬ (∀ ops : List AppOp, liveWorkers (appRun ops) ≤ 1) := by
  refine ⟨by decide, by decide, fun h => ?_⟩
  exact absurd (h [.arrive, .arrive, .check, .check, .spawn, .spawn]) (by decide)

/-- C1 amended: a guard read executed while the running flag is set
rejects the request ("Process already running!"), spawns nothing and
leaves the flag, the live-worker count and the passed-handler count
unchanged; and along every schedule in which no guard read races another
request's check-to-flag-set window, at most one worker is ever live — the
unsynchronized window (see the counterexample) is exactly what the
original system-wide guarantee fails on. -/
theorem start_guard_race :
    (∀ s : AppState, s.isRunning = true → 0 < s.reqChecking →
      appStep s .check =
        { s with reqChecking := s.reqChecking - 1, rejected := s.rejected + 1 } ∧
      liveWorkers (appStep s .check) = liveWorkers s ∧
      (appStep s .check).isRunning = true ∧
      (appStep s .check).reqPassed = s.reqPassed) ∧
    (∀ ops : List AppOp, raceFreeFrom appInit ops → liveWorkers (appRun ops) ≤ 1) := by
  constructor
  · intro s hs hc
    have h0 : ¬ s.reqChecking = 0 := by omega
    refine ⟨?_, ?_, ?_, ?_⟩ <;> simp [appStep, h0, hs, liveWorkers]
  · intro ops hr
    obtain ⟨ha, _⟩ := appRun_inv ops appInit (by simp [appInv, appInit]) hr
    unfold appRun liveWorkers
    omega

/-- Witness for C1 (amended): a busy state rejects a pending request
unchanged, and a concrete race-free schedule (one full request, its
worker started) keeps at most one worker live. -/
theorem start_guard_race_w :
    (appStep ⟨true, 1, 0, 0, 1, 0⟩ .check = ⟨true, 0, 0, 0, 1, 1⟩ ∧
      liveWorkers (appStep ⟨true, 1, 0, 0, 1, 0⟩ .check) =
        liveWorkers ⟨true, 1, 0, 0, 1, 0⟩ ∧
      (appStep ⟨true, 1, 0, 0, 1, 0⟩ .check).isRunning = true ∧
      (appStep ⟨true, 1, 0, 0, 1, 0⟩ .check).reqPassed = 0) ∧
    liveWorkers (appRun [.arrive, .check, .spawn, .workerSetFlag]) ≤ 1 := by
  constructor
  · exact start_guard_race.1 ⟨true, 1, 0, 0, 1, 0⟩ rfl (by decide)
  · refine start_guard_race.2 [.arrive, .check, .spawn, .workerSetFlag] ?_
    simp [raceFreeFrom, noRaceAt, appStep, appInit]

/-- C9 counterexample: the `/clear_logs` route deletes the whole buffer —
on the two-entry buffer `["a", "b"]` (far below capacity) the newest entry
does not survive, so it is not true that buffer operations remove only the
oldest-beyond-capacity entry. -/
theorem clear_logs_removes_recent : ¬ removesAtMostOldest clear_logs_route := by
  intro h
  have h2 := h ["a", "b"]
  simp [clear_logs_route, removesAtMostOldest] at h2

/-- C9 amended: after every `log_msg` append the buffer holds at most 500
entries and the result is the appended buffer with, at most, the oldest
entry dropped; iterated appends from an empty buffer stay within capacity;
but the `/clear_logs` route empties the buffer wholesale. -/
theorem log_buffer_ring :
    (∀ (buf : List String) (e : String), buf.length ≤ 500 →
      (log_msg buf e).length ≤ 500 ∧
      (log_msg buf e = buf ++ [e] ∨ log_msg buf e = (buf ++ [e]).drop 1)) ∧
    (∀ e : String, removesAtMostOldest (fun buf => log_msg buf e)) ∧
    (∀ entries : List String, (entries.foldl log_msg []).length ≤ 500) ∧
    (∀ buf : List String, clear_logs_route buf = []) := by
  refine ⟨?_, ?_, ?_, fun _ => rfl⟩
  · intro buf e h
    refine ⟨log_msg_length buf e h, ?_⟩
    unfold log_msg
    split
    · right; rfl
    · left; rfl
  · intro e buf
    show buf.drop 1 <:+: log_msg buf e
    unfold log_msg
    split
    · cases buf with
      | nil => simp
      | cons b bs =>
        rw [List.drop_append_of_le_length (by simp)]
        exact (List.prefix_append _ _).isInfix
    · have h1 : buf.drop 1 <:+ buf := List.drop_suffix 1 buf
      exact h1.isInfix.trans (List.prefix_append _ _).isInfix
  · intro entries
    exact log_foldl_bound entries [] (by simp)

/-- Witness for C9 (amended) on a small concrete buffer. -/
theorem log_buffer_ring_w :
    (log_msg ["a"] "b").length ≤ 500 ∧
    (log_msg ["a"] "b" = ["a"] ++ ["b"] ∨ log_msg ["a"] "b" = (["a"] ++ ["b"]).drop 1) :=
  log_buffer_ring.1 ["a"] "b" (by decide)

/-- C8 counterexample: with two provider pages `["a"]` and `["b"]`, the
clear worker's single `list` call sees only the first page, not the
accumulated set, so the clear workflow's listing does not gather all pages. -/
theorem single_scan_misses_pages :
    appScanListing [["a"], ["b"]] ≠ gatherAllPages [["a"], ["b"]] := by decide

/-- C8 amended: the GUI clear path (`clear_events_gui`) follows the
continuation token to accumulate exactly the union of all pages, while the
background clear worker's per-pass listing reads only the first response
page (a prefix of the accumulated listing). -/
theorem pagination_accumulates_all :
    (∀ (pages : List (List String)) (x : String),
      x ∈ gatherAllPages pages ↔ ∃ pg ∈ pages, x ∈ pg) ∧
    (∀ pages : List (List String), appScanListing pages <+: gatherAllPages pages) := by
  constructor
  · intro pages x
    induction pages with
    | nil => simp [gatherAllPages]
    | cons p rest ih => simp [gatherAllPages, ih]
  · intro pages
    cases pages with
    | nil => simp [appScanListing, gatherAllPages]
    | cons p rest =>
      show p <+: p ++ gatherAllPages rest
      exact List.prefix_append _ _

/-- C3: no enumerated failure (missing config / fetch failure → `None`
fetch result, authentication failure → no service, per-item `HttpError`
inserts, caught listing/delete errors) escapes a background run: the sync
worker returns without an uncaught exception whenever normalization does
not raise, every returned outcome has the running flag reset, the
fetch-failure and auth-failure paths terminate with exactly their log
line and an idle state, and every clear run ends with the running flag
reset. -/
theorem no_uncaught_failures :
    (∀ (fmtTs : Int → String) (env : SyncEnv),
      (∀ d, env.fetchResult = some d → ∃ evs, process_sdui_data fmtTs d = .ok evs) →
      ∀ e : PyErr, worker_sync fmtTs env ≠ .error e) ∧
    (∀ (fmtTs : Int → String) (env : SyncEnv) (out : SyncOut),
      worker_sync fmtTs env = .ok out → out.running = false) ∧
    (∀ (fmtTs : Int → String) (env : SyncEnv), env.fetchResult = none →
      worker_sync fmtTs env =
        .ok ⟨0, false, [], ["--- STARTING SYNC (Background) ---", "Failed to get data."]⟩) ∧
    (∀ (fmtTs : Int → String) (env : SyncEnv) (d : JVal) (evs : List GEvent),
      env.fetchResult = some d → d.truthy = true →
      process_sdui_data fmtTs d = .ok evs → evs ≠ [] → env.authOk = false →
      worker_sync fmtTs env =
        .ok ⟨0, false, [], ["--- STARTING SYNC (Background) ---", "Auth failed."]⟩) ∧
    (∀ env : ClearEnv, (worker_clear env).running = false) := by
  refine ⟨worker_sync_no_error, worker_sync_running, ?_, ?_, fun _ => rfl⟩
  · intro fmtTs env hf
    simp [worker_sync, hf]
  · intro fmtTs env d evs hf htr hevs hne hauth
    have hne2 : evs.isEmpty = false := by
      cases evs with
      | nil => exact absurd rfl hne
      | cons a l => rfl
    simp [worker_sync, hf, htr, hevs, hne2, hauth]

/-- Witness for C3: a run whose fetch returned `None` ends idle with the
failure logged. -/
theorem no_uncaught_failures_w :
    worker_sync fmtTs0 envFetchFail =
      .ok ⟨0, false, [], ["--- STARTING SYNC (Background) ---", "Failed to get data."]⟩ :=
  no_uncaught_failures.2.2.1 fmtTs0 envFetchFail rfl

/-- C2: the per-event retry loop sleeps `2^attempt + jitter` seconds per
rate-limited attempt — equal to `min(cap, 2^attempt) + jitter` for the
cap 128 induced by the 8-attempt ceiling — with strictly increasing delays
across an event's successive attempts; an always-rate-limited event is
abandoned after exactly 8 attempts (8 sleeps, nothing counted); a
non-rate-limit `HttpError` is not retried (no sleep) and the run moves to
the next event; and the 3-event scenario in which item 2 is rate-limited
twice then succeeds ends with insert count 3 after two strictly
increasing delays. -/
theorem rate_limit_backoff (jit : Nat → ℚ) (hj : ∀ k, 0 ≤ jit k ∧ jit k < 1) :
    (syncRetry (insAlwaysRL 0) abortOff jit 0 1 "E" 8 0 syncSt0).sleeps =
      (List.range 8).map (fun a => (2 : ℚ) ^ a + jit a) ∧
    (∀ a, a < 8 → min (128 : ℚ) ((2 : ℚ) ^ a) = (2 : ℚ) ^ a) ∧
    List.Chain' (· < ·) ((List.range 8).map (fun a => (2 : ℚ) ^ a + jit a)) ∧
    (syncRetry (insAlwaysRL 0) abortOff jit 0 1 "E" 8 0 syncSt0).count = 0 ∧
    (syncRetry (insErr1 1) abortOff jit 1 3 "E" 8 0 syncSt0).count = 0 ∧
    (syncRetry (insErr1 1) abortOff jit 1 3 "E" 8 0 syncSt0).sleeps = [] ∧
    (syncLoop insErr1 abortOff jit 3 evs3 0 syncSt0).count = 2 ∧
    (syncLoop insScenario abortOff jit 3 evs3 0 syncSt0).count = 3 ∧
    (syncLoop insScenario abortOff jit 3 evs3 0 syncSt0).sleeps =
      [(2 : ℚ) ^ 0 + jit 0, (2 : ℚ) ^ 1 + jit 1] ∧
    (2 : ℚ) ^ 0 + jit 0 < (2 : ℚ) ^ 1 + jit 1 := by
  refine ⟨rfl, ?_, ?_, rfl, rfl, rfl, rfl, rfl, rfl, ?_⟩
  · intro a ha
    have h7 : (2 : ℚ) ^ a ≤ 2 ^ 7 := pow_le_pow_right₀ (by norm_num) (by omega)
    have h128 : (2 : ℚ) ^ 7 = 128 := by norm_num
    exact min_eq_right (by linarith)
  · rw [List.chain'_map, show (8 : ℕ) = Nat.succ 7 from rfl, List.chain'_range_succ]
    intro m _
    exact backoff_step m (jit m) (jit (m + 1)) (hj m).1 (hj m).2 (hj (m + 1)).1
  · exact backoff_step 0 (jit 0) (jit 1) (hj 0).1 (hj 0).2 (hj 1).1

/-- Witness for C2 with jitter constantly one half: the scenario run
inserts all three events. -/
theorem rate_limit_backoff_w :
    (syncLoop insScenario abortOff (fun _ => (1 : ℚ) / 2) 3 evs3 0 syncSt0).count = 3 :=
  (rate_limit_backoff (fun _ => (1 : ℚ) / 2)
    (fun _ => ⟨by norm_num, by norm_num⟩)).2.2.2.2.2.2.2.1

/-- C5 counterexample: on the exam scenario payload the produced summary
is the glyph-prefixed "📝 Exam: Chemistry", which differs from the bare
"Exam: Chemistry" the claim states. -/
theorem exam_summary_has_glyph :
    process_sdui_data fmtTs0 payloadC5 =
      .ok [{ summary := "📝 Exam: Chemistry", start := fmtTs0 1700000000,
             stop := fmtTs0 1700003600, location := "",
             description := "Teacher: Dr.X\nType: lesson", colorId := COLOR_EXAM }] ∧
    "📝 Exam: Chemistry" ≠ "Exam: Chemistry" :=
  ⟨rfl, by decide⟩

/-- C5 amended: the scenario record normalizes to exactly one event whose
summary is "📝 Exam: Chemistry" (the `oftype_map` exam label, glyph
included, prefixed to the final underscore-delimited segment of
"10B_Chemistry"), whose color is the exam color, and whose description
contains "Teacher: Dr.X"; "Exam: Chemistry" occurs in the summary only as
a suffix of the glyph-prefixed form. -/
theorem exam_scenario_normalized (fmtTs : Int → String) :
    process_sdui_data fmtTs payloadC5 =
      .ok [{ summary := "📝 Exam: Chemistry", start := fmtTs 1700000000,
             stop := fmtTs 1700003600, location := "",
             description := "Teacher: Dr.X\nType: lesson", colorId := COLOR_EXAM }] ∧
    "Exam: Chemistry".toList <:+: "📝 Exam: Chemistry".toList ∧
    "Teacher: Dr.X".toList <:+: "Teacher: Dr.X\nType: lesson".toList :=
  ⟨rfl, by decide, by decide⟩

/-- Splitting an ok-valued `Except` bind. -/
theorem exceptBind_ok {α β : Type} {x : Except PyErr α} {f : α → Except PyErr β} {b : β}
    (h : (x >>= f) = .ok b) : ∃ a, x = .ok a ∧ f a = .ok b := by
  cases x with
  | ok a => exact ⟨a, rfl, h⟩
  | error e => simp [Bind.bind, Except.bind] at h

/-- A lesson whose `begins_at` extraction yields a falsy value produces no
event (provided the per-lesson processing itself did not raise). -/
theorem skip_falsy_begin (fmtTs : Int → String) (l : JVal) (r : Option GEvent) (ts : JVal)
    (hp : processLesson fmtTs l = .ok r)
    (hb : pyGet l "begins_at" .null = .ok ts) (ht : ts.truthy = false) : r = none := by
  unfold processLesson at hp
  obtain ⟨hd, _, hp2⟩ := exceptBind_ok hp
  obtain ⟨tsS, hbS, hp3⟩ := exceptBind_ok hp2
  rw [hb] at hbS
  injection hbS with hbS
  subst hbS
  obtain ⟨tsE, _, hp4⟩ := exceptBind_ok hp3
  simp [ht, pure, Except.pure] at hp4
  exact hp4.symm

/-- A lesson whose `ends_at` extraction yields a falsy value produces no
event (provided the per-lesson processing itself did not raise). -/
theorem skip_falsy_end (fmtTs : Int → String) (l : JVal) (r : Option GEvent) (ts : JVal)
    (hp : processLesson fmtTs l = .ok r)
    (hb : pyGet l "ends_at" .null = .ok ts) (ht : ts.truthy = false) : r = none := by
  unfold processLesson at hp
  obtain ⟨hd, _, hp2⟩ := exceptBind_ok hp
  obtain ⟨tsS, _, hp3⟩ := exceptBind_ok hp2
  obtain ⟨tsE, hbE, hp4⟩ := exceptBind_ok hp3
  rw [hb] at hbE
  injection hbE with hbE
  subst hbE
  simp [ht, pure, Except.pure] at hp4
  exact hp4.symm

/-- C10: a lesson whose extracted `begins_at` or `ends_at` is falsy —
`None` (also when the key is absent, via the `.get` default) or the
integer 0 — contributes no event; in particular the lesson with
`begins_at = 0` behaves exactly like the one with the field missing, and
the surrounding payload normalizes to the empty event list. -/
theorem falsy_timestamp_skipped :
    (∀ (fmtTs : Int → String) (l : JVal) (r : Option GEvent) (ts : JVal),
      processLesson fmtTs l = .ok r → pyGet l "begins_at" .null = .ok ts →
      ts.truthy = false → r = none) ∧
    (∀ (fmtTs : Int → String) (l : JVal) (r : Option GEvent) (ts : JVal),
      processLesson fmtTs l = .ok r → pyGet l "ends_at" .null = .ok ts →
      ts.truthy = false → r = none) ∧
    ((JVal.num 0).truthy = false ∧ (JVal.null).truthy = false) ∧
    processLesson fmtTs0 lessonZeroTs = .ok none ∧
    processLesson fmtTs0 lessonZeroTs = processLesson fmtTs0 lessonNoTs ∧
    process_sdui_data fmtTs0 (.obj [("data", .obj [("lessons", .arr [lessonZeroTs])])]) =
      .ok [] :=
  ⟨skip_falsy_begin, skip_falsy_end, ⟨rfl, rfl⟩, rfl, rfl, rfl⟩

/-- Witness for C10: the epoch-0 lesson is skipped, by the theorem applied
at the concrete record. -/
theorem falsy_timestamp_skipped_w :
    processLesson fmtTs0 lessonZeroTs = .ok none ∧ (none : Option GEvent) = none :=
  ⟨rfl, falsy_timestamp_skipped.1 fmtTs0 lessonZeroTs none (.num 0) rfl rfl rfl⟩

/-- C4: every clear run executes at most 5 scan passes; a scan that
returns zero items ends the whole operation (one more pass, no further
deletions, "Clean." logged); a run whose first scan is empty performs
exactly one pass with zero deletions; and a pass whose non-empty listing
yields zero successful deletes terminates the run after that single pass. -/
theorem clear_pass_discipline :
    (∀ env : ClearEnv, (worker_clear env).passes ≤ 5) ∧
    (∀ (env : ClearEnv) (fuel p : Nat) (st : ClearSt),
      env.abort st.polls = false → env.list p = some [] →
      (clearLoop env p (fuel + 1) st).passes = st.passes + 1 ∧
      (clearLoop env p (fuel + 1) st).totalDeleted = st.totalDeleted ∧
      "Clean." ∈ (clearLoop env p (fuel + 1) st).logs) ∧
    (∀ env : ClearEnv, env.abort 0 = false → env.list 1 = some [] →
      (worker_clear env).passes = 1 ∧ (worker_clear env).totalDeleted = 0 ∧
      "Clean." ∈ (worker_clear env).logs) ∧
    (∀ (env : ClearEnv) (items : List String), env.abort 0 = false →
      env.list 1 = some items → items ≠ [] → (∀ j, env.del 1 j ≠ .ok) →
      (worker_clear env).passes = 1) := by
  have hempty : ∀ (env : ClearEnv) (fuel p : Nat) (st : ClearSt),
      env.abort st.polls = false → env.list p = some [] →
      (clearLoop env p (fuel + 1) st).passes = st.passes + 1 ∧
      (clearLoop env p (fuel + 1) st).totalDeleted = st.totalDeleted ∧
      "Clean." ∈ (clearLoop env p (fuel + 1) st).logs := by
    intro env fuel p st ha hl
    refine ⟨?_, ?_, ?_⟩ <;> simp [clearLoop, ha, hl]
  refine ⟨?_, hempty, ?_, ?_⟩
  · intro env
    show (clearLoop env 1 5 ⟨0, 0, 0, [], [], _⟩).passes ≤ 5
    simpa using clearLoop_passes_le env 5 1 _
  · intro env ha hl
    obtain ⟨h1, h2, h3⟩ := hempty env 4 1 ⟨0, 0, 0, [], [], ["--- STARTING DELETE (Background) ---"]⟩ ha hl
    refine ⟨h1, h2, ?_⟩
    show "Clean." ∈ (if env.abort _ then _ else _)
    split <;> simp only [List.mem_append] <;> exact Or.inl h3
  · intro env items ha hl hne hd
    have hne2 : items.isEmpty = false := by
      cases items with
      | nil => exact absurd rfl hne
      | cons a l => rfl
    have hfail := clearDelLoop_allFail env 1 hd items 0 0
    show (clearLoop env 1 5 _).passes = 1
    simp only [clearLoop, ha, Bool.false_eq_true, if_false, hl, hne2]
    rw [(Nat.beq_eq_true_eq _ _).mpr (hfail _).1]
    simp [clearDelLoop_passes]

/-- Witness for C4: a clear run over an always-empty window makes exactly
one pass, deletes nothing and logs "Clean.". -/
theorem clear_pass_discipline_w :
    (worker_clear envClean).passes = 1 ∧ (worker_clear envClean).totalDeleted = 0 ∧
    "Clean." ∈ (worker_clear envClean).logs :=
  clear_pass_discipline.2.2.1 envClean rfl rfl

/-- C7 counterexample: in the concrete clear run `envC7`, the delete of
item 0 in pass 1 is rate-limited, yet the next delete call is `(1, 1)` —
the next item — not `(1, 0)` again: the worker does not retry the same
delete after the 2-second sleep. -/
theorem delete_not_retried :
    delCallsOf envC7 = [(1, 0), (1, 1)] ∧
    envC7.del 1 0 = .rate403 ∧
    (worker_clear envC7).sleeps = [(2 : ℚ)] ∧
    ¬ retriesSameDelete envC7 := by
  refine ⟨rfl, rfl, rfl, ?_⟩
  intro h
  have hL : delCallsOf envC7 = [(1, 0), (1, 1)] := rfl
  have h0 := h 0 (by rw [hL]; simp) (by rw [hL]; rfl)
  rw [hL] at h0
  exact absurd h0 (by decide)

/-- C7 amended: a rate-limited delete makes the worker log, sleep a
constant 2 seconds and move on to the NEXT item of the pass (the item is
only seen again if a later scan pass lists it); accordingly every sleep of
a clear run is exactly 2 seconds, and no (pass, item) delete call is ever
issued twice within a run. -/
theorem delete_rate_limit_moves_on :
    (∀ (env : ClearEnv) (p j batch : Nat) (ev : String) (rest : List String) (st : ClearSt),
      env.abort st.polls = false → env.del p j = .rate403 →
      clearDelLoop env p (ev :: rest) j batch st =
        clearDelLoop env p rest (j + 1) batch
          { st with polls := st.polls + 1,
                    delCalls := st.delCalls ++ [(p, j)],
                    sleeps := st.sleeps ++ [(2 : ℚ)],
                    logs := st.logs ++ ["Rate Limit (Delete). Waiting 2s..."] }) ∧
    (∀ env : ClearEnv, ∀ x ∈ (worker_clear env).sleeps, x = (2 : ℚ)) ∧
    (∀ env : ClearEnv, (worker_clear env).delCalls.Nodup) := by
  refine ⟨?_, ?_, ?_⟩
  · intro env p j batch ev rest st ha hd
    conv_lhs => rw [clearDelLoop]
    simp [ha, hd]
  · intro env
    show ∀ x ∈ (clearLoop env 1 5 _).sleeps, x = (2 : ℚ)
    exact clearLoop_sleeps2 env 5 1 _ (by simp)
  · intro env
    show (clearLoop env 1 5 _).delCalls.Nodup
    exact clearLoop_calls_nodup env 5 1 _ (by simp) (by simp)

/-- Witness for C7 (amended): the rate-limited first delete of `envC7`
steps to the rest of the items with the 2-second sleep recorded. -/
theorem delete_rate_limit_moves_on_w :
    clearDelLoop envC7 1 ["a", "b"] 0 0 ⟨0, 0, 0, [], [], []⟩ =
      clearDelLoop envC7 1 ["b"] 1 0
        ⟨0, 0, 1, [(2 : ℚ)], [(1, 0)], ["Rate Limit (Delete). Waiting 2s..."]⟩ :=
  delete_rate_limit_moves_on.1 envC7 1 0 0 "a" ["b"] ⟨0, 0, 0, [], [], []⟩ rfl rfl

/-- C6 (code bug): Normalize is meant to be total on malformed payloads,
but a payload whose `data` key holds `None` passes the falsy/membership
guard and `None.get("lessons", [])` raises `AttributeError`; the exception
propagates uncaught out of `worker_sync`. -/
theorem normalize_crashes_on_null_data (fmtTs : Int → String) :
    process_sdui_data fmtTs (.obj [("data", .null)]) = .error .attributeError ∧
    worker_sync fmtTs
      { fetchResult := some (.obj [("data", .null)]), authOk := true,
        insert := fun _ _ => .ok, abort := abortOff, jit := fun _ => 0 } =
      .error .attributeError :=
  ⟨rfl, rfl⟩

end SduiCal
